import Mathlib

/-!
Verification of the knowledge-base chat service (`lambda_function.py`) and its
Streamlit front end (`app.py`, `ui_components.py`, `chat_history.py`,
`feedback_handler.py`).

Modelling conventions, shared by all definitions below:
* Python strings are Lean `String`s; character-level operations
  (`str.strip`, `str.split('.')`, the substring test `a in b`, `' '.join`)
  are implemented on `String.data` with the same semantics.
* Python floats (relevance scores, timestamps) are modelled as `ℚ`.
* The AWS collaborators (Bedrock retrieve-and-generate, the Cohere rerank
  model, S3 presigning, DynamoDB) are opaque: their outcomes are passed to
  the translated functions as explicit parameters (`Except` for calls that
  can raise, an oracle function for presigning, a list-of-items state for
  each DynamoDB table).
* A Python `dict` that is only read through fixed keys is a structure with
  `Option` fields for keys that may be absent; `dict.get(k, d)` is
  `Option.getD`.
-/

/-- Python `' '.join(parts)` on the underlying character lists:
separator interleaving of a list of character lists. -/
def join_sep : List (List Char) → List Char
  | [] => []
  | [x] => x
  | x :: y :: rest => x ++ ' ' :: join_sep (y :: rest)

/-- Python `' '.join(parts)` for `String`s. -/
def join_space (parts : List String) : String := ⟨join_sep (parts.map String.data)⟩

/-- Python `str.strip()`: remove leading and trailing whitespace. -/
def str_trim (s : String) : String :=
  ⟨((s.data.dropWhile Char.isWhitespace).reverse.dropWhile Char.isWhitespace).reverse⟩

/-- Python `str.split(sep)` for a one-character separator, on character
lists: `split('.')` of an empty string is `[""]`, separators at the ends
produce empty fields, exactly as in Python. -/
def split_char (c : Char) : List Char → List (List Char)
  | [] => [[]]
  | x :: xs =>
    if x = c then [] :: split_char c xs
    else
      match split_char c xs with
      | [] => [[x]]
      | y :: ys => (x :: y) :: ys

/-- Python `snippet.split('.')` for `String`s. -/
def split_dot (s : String) : List String := (split_char '.' s.data).map String.mk

/-- Python `a in b` on strings: `a` occurs contiguously inside `b`. -/
def is_substr (a b : String) : Bool := decide (a.data <:+: b.data)

/-- `RELEVANCE_THRESHOLD = 0.3` from `lambda_function.py`. -/
def RELEVANCE_THRESHOLD : ℚ := mkRat 3 10

/-- One reference dictionary as it flows through the lambda pipeline.
`extract_references` fills `uri`, `snippet` and `used_in_response`;
`rerank_references` adds `relevance_score` and `rank`;
`process_s3_urls` adds `presigned_url`.  An `Option` field is `none`
when the corresponding dict key is absent. -/
structure Ref where
  uri : Option String := none
  snippet : String := ""
  used_in_response : Bool := false
  relevance_score : Option ℚ := none
  rank : Option Nat := none
  presigned_url : Option String := none
deriving DecidableEq

instance : Inhabited Ref := ⟨{}⟩

/-- One entry of the rerank model response body `results` list; the code
reads it with `result.get('index', 0)` and `result.get('relevance_score', 0)`. -/
structure RerankResult where
  index : Option Nat := none
  relevance_score : Option ℚ := none
deriving DecidableEq

/-- The sort key used at `lambda_function.py` line 112:
`key=lambda x: (x['used_in_response'], x['relevance_score'])`, with the
Python booleans ordered `False < True` (encoded `0 < 1`). -/
def sort_key (r : Ref) : Nat × ℚ :=
  ((if r.used_in_response then 1 else 0), r.relevance_score.getD 0)

/-- `a` may come no later than `b` under the Python
`sort(key=..., reverse=True)`: the key of `a` is lexicographically at
least the key of `b`. -/
def key_ge (a b : Ref) : Prop :=
  (sort_key b).1 < (sort_key a).1 ∨
    ((sort_key a).1 = (sort_key b).1 ∧ (sort_key b).2 ≤ (sort_key a).2)

instance key_ge_decidable : DecidableRel key_ge := fun a b => by
  unfold key_ge; infer_instance

instance key_ge_total : IsTotal Ref key_ge := ⟨by
  intro a b
  unfold key_ge
  rcases Nat.lt_trichotomy (sort_key a).1 (sort_key b).1 with h | h | h
  · exact Or.inr (Or.inl h)
  · rcases le_total (sort_key a).2 (sort_key b).2 with h2 | h2
    · exact Or.inr (Or.inr ⟨h.symm, h2⟩)
    · exact Or.inl (Or.inr ⟨h, h2⟩)
  · exact Or.inl (Or.inl h)⟩

instance key_ge_trans : IsTrans Ref key_ge := ⟨by
  intro a b c hab hbc
  unfold key_ge at *
  rcases hab with h1 | ⟨e1, l1⟩
  · rcases hbc with h2 | ⟨e2, l2⟩
    · exact Or.inl (Nat.lt_trans h2 h1)
    · exact Or.inl (e2 ▸ h1)
  · rcases hbc with h2 | ⟨e2, l2⟩
    · exact Or.inl (e1 ▸ h2)
    · exact Or.inr ⟨e1.trans e2, le_trans l2 l1⟩⟩

/-- `rerank_references` from `lambda_function.py`.  The outcome of the
`invoke_model` call on the Cohere rerank model is the parameter
`outcome`: `.error` models any raised exception (network failure, bad
response); in that case the function returns its input unchanged.  A
result entry whose `index` is out of range raises `IndexError` inside the
`try`, which is likewise caught and returns the input unchanged.  On the
success path, results with `relevance_score >= RELEVANCE_THRESHOLD` are
kept (annotated with their score, 1-based enumeration rank, and whether
the source snippet occurs verbatim in the generated response) and the
list is sorted by `(used_in_response, relevance_score)` descending, the
sort being stable like Python's. -/
def rerank_references (references : List Ref) (user_query generated_response : String)
    (outcome : Except String (List RerankResult)) : List Ref :=
  match outcome with
  | .error _ => references
  | .ok results =>
    if results.any (fun r => decide (references.length ≤ r.index.getD 0)) then
      references
    else
      let ranked := results.enum.filterMap (fun p =>
        let original_ref := references.getD (p.2.index.getD 0) default
        let relevance_score := p.2.relevance_score.getD 0
        let is_used := is_substr original_ref.snippet generated_response
        if RELEVANCE_THRESHOLD ≤ relevance_score then
          some { original_ref with
                  relevance_score := some relevance_score,
                  rank := some (p.1 + 1),
                  used_in_response := is_used }
        else none)
      List.insertionSort key_ge ranked

/-- Concrete input for claim C2: a reference whose snippet does not occur
in the generated response. -/
def c2_ref_a : Ref := { uri := some "s3://docs/a", snippet := "aa" }

/-- Concrete input for claim C2: a reference whose snippet occurs verbatim
in the generated response "bb". -/
def c2_ref_b : Ref := { uri := some "s3://docs/b", snippet := "bb" }

/-- Concrete rerank model results for claim C2: the unused reference gets
score 0.9, the used one score 0.4, both above the 0.3 threshold. -/
def c2_results : List RerankResult :=
  [{ index := some 0, relevance_score := some (mkRat 9 10) },
   { index := some 1, relevance_score := some (mkRat 2 5) }]

/-- One element of a citation's `retrievedReferences` list, as read by
`extract_references`: the `location.s3Location.uri` when it is present,
and `content.text` (defaulting to the empty string). -/
structure RetrievedRef where
  uri : Option String := none
  text : String := ""
deriving DecidableEq

/-- One element of the `citations` list of the retrieve-and-generate
response. -/
structure Citation where
  retrievedReferences : List RetrievedRef := []
deriving DecidableEq

/-- The stripped snippet of a retrieved reference:
`reference.get('content', {}).get('text', '').strip()`. -/
def snippet_of (r : RetrievedRef) : String := str_trim r.text

/-- The per-snippet usage test of `extract_references` (lines 147-154):
the snippet is non-empty and one of its period-separated sentences,
stripped, is non-empty and occurs in the generated response. -/
def used_hit (generated_response snippet : String) : Bool :=
  decide (snippet ≠ "") &&
    (split_dot snippet).any (fun seg =>
      decide (str_trim seg ≠ "") && is_substr (str_trim seg) generated_response)

/-- The loop state of `extract_references`: the `used_citations` set (a
list whose membership is what matters) and the `document_snippets` dict
(an insertion-ordered association list from URI to its snippets). -/
structure EState where
  used : List String
  snips : List (String × List String)

/-- `document_snippets[uri].append(snippet)` including the implicit
`document_snippets[uri] = []` for a first occurrence: update the entry
of `u` in place, or append a new entry at the end (dict insertion order). -/
def add_snip : List (String × List String) → String → String → List (String × List String)
  | [], u, s => [(u, [s])]
  | p :: rest, u, s =>
    if p.1 = u then (p.1, p.2 ++ [s]) :: rest else p :: add_snip rest u s

/-- The body of the inner loop of `extract_references` for one retrieved
reference: skip it unless an S3 uri is present, otherwise record a usage
hit and append the stripped snippet to the uri's snippet list. -/
def estep (generated_response : String) (st : EState) (r : RetrievedRef) : EState :=
  match r.uri with
  | none => st
  | some u =>
    let snippet := snippet_of r
    { used := if used_hit generated_response snippet then u :: st.used else st.used,
      snips := add_snip st.snips u snippet }

/-- The flattened sequence of retrieved references visited by the two
nested loops of `extract_references`. -/
def rrefs_of (citations : List Citation) : List RetrievedRef :=
  (citations.map Citation.retrievedReferences).flatten

/-- The final loop state of `extract_references` after visiting every
retrieved reference. -/
def extract_state (citations : List Citation) (generated_response : String) : EState :=
  (rrefs_of citations).foldl (estep generated_response) ⟨[], []⟩

/-- `extract_references` from `lambda_function.py` (lines 126-170): walk
every citation's retrieved references, deduplicate by S3 uri, join the
first three snippets of each uri with spaces, and flag the uri as used
when one of its snippets scored a usage hit. -/
def extract_references (citations : List Citation) (generated_response : String) :
    List Ref :=
  let st := extract_state citations generated_response
  st.snips.map (fun p =>
    { uri := some p.1,
      snippet := join_space (p.2.take 3),
      used_in_response := decide (p.1 ∈ st.used) })

/-- First-match lookup in the `document_snippets` association list
(Python dict indexing), with `[]` for a missing key. -/
def snips_val : List (String × List String) → String → List String
  | [], _ => []
  | p :: rest, u => if p.1 = u then p.2 else snips_val rest u

/-- Specification-side description of the snippets retrieved for a given
uri: the stripped `content.text` of every retrieved reference whose
`s3Location.uri` equals `u`, in visiting order. -/
def snippets_for_list (rs : List RetrievedRef) (u : String) : List String :=
  rs.filterMap (fun r => if r.uri = some u then some (snippet_of r) else none)

/-- `snippets_for_list` over all citations of a response. -/
def snippets_for (citations : List Citation) (u : String) : List String :=
  snippets_for_list (rrefs_of citations) u

/-- The invariant tied to the `extract_references` loop after processing
the prefix `pre` of retrieved references: dict keys are distinct, each
key holds exactly the snippets retrieved so far for it, a key is present
exactly when its uri has occurred, and the used set holds exactly the
uris one of whose snippets scored a usage hit. -/
def ExtractInv (generated_response : String) (pre : List RetrievedRef) (st : EState) :
    Prop :=
  (st.snips.map Prod.fst).Nodup
  ∧ (∀ u, snips_val st.snips u = snippets_for_list pre u)
  ∧ (∀ u, u ∈ st.snips.map Prod.fst ↔ snippets_for_list pre u ≠ [])
  ∧ (∀ u, u ∈ st.used ↔
      ∃ s, s ∈ snippets_for_list pre u ∧ used_hit generated_response s = true)

/-- Concrete citation list for claim C3's witness. -/
def c3_citations : List Citation :=
  [{ retrievedReferences :=
      [{ uri := some "s3://kb/doc1", text := " hello there. end " },
       { uri := some "s3://kb/doc1", text := "more" }] }]

/-- Concrete extracted reference for claim C3's witness. -/
def c3_ref : Ref :=
  { uri := some "s3://kb/doc1", snippet := "hello there. end more",
    used_in_response := true }

/-- `urlparse` restricted to the shapes `scheme://netloc/path` and plain
paths, which is how `process_s3_urls` uses it on `s3://bucket/key` uris:
returns the netloc and the path (keeping the leading slash). -/
def url_netloc_path (u : String) : String × String :=
  match u.data.dropWhile (fun c => !(decide (c = ':'))) with
  | ':' :: '/' :: '/' :: r =>
    (⟨r.takeWhile (fun c => !(decide (c = '/')))⟩,
     ⟨r.dropWhile (fun c => !(decide (c = '/')))⟩)
  | _ => ("", u)

/-- `parsed_url.netloc.split('.')[0]`: the bucket is the netloc up to the
first dot. -/
def s3_bucket (uri : String) : String :=
  ⟨(url_netloc_path uri).1.data.takeWhile (fun c => !(decide (c = '.')))⟩

/-- `parsed_url.path.lstrip('/')`: the object key is the path without its
leading slashes. -/
def s3_key (uri : String) : String :=
  ⟨(url_netloc_path uri).2.data.dropWhile (fun c => decide (c = '/'))⟩

/-- `generate_presigned_url` from `lambda_function.py` (lines 27-43): ask
the object store (the oracle `presign`) for a URL for `(bucket, key)`
with the default `expiration=1800` seconds; `none` models a raised
exception, which the function turns into returning `None`. -/
def generate_presigned_url (presign : String → String → Nat → Option String)
    (bucket key : String) (expiration : Nat := 1800) : Option String :=
  presign bucket key expiration

/-- The body of the `process_s3_urls` loop for one reference: skip it
unless it has a `uri` key, otherwise parse bucket and key out of the S3
uri, request a presigned URL (with the default expiration), and keep the
reference — with its `presigned_url` field set — exactly when a truthy
URL came back. -/
def process_one (presign : String → String → Nat → Option String)
    (ref : Ref) : Option Ref :=
  match ref.uri with
  | none => none
  | some uri =>
    match generate_presigned_url presign (s3_bucket uri) (s3_key uri) with
    | none => none
    | some url =>
      if url = "" then none else some { ref with presigned_url := some url }

/-- `process_s3_urls` from `lambda_function.py` (lines 45-60). -/
def process_s3_urls (presign : String → String → Nat → Option String)
    (references : List Ref) : List Ref :=
  references.filterMap (process_one presign)

/-- Specification-side test for claim C5: the reference carries a `uri`
key and presigned-URL generation (always requested with expiration 1800)
succeeds with a truthy URL. -/
def presign_succeeds (presign : String → String → Nat → Option String)
    (ref : Ref) : Bool :=
  match ref.uri with
  | none => false
  | some uri =>
    match presign (s3_bucket uri) (s3_key uri) 1800 with
    | none => false
    | some url => decide (url ≠ "")

/-- The fixed expiration, in seconds, of every presigned URL the handler
requests (the default argument of `generate_presigned_url`, never
overridden). -/
def PRESIGN_EXPIRATION : Nat := 1800

/-- `validate_response_relevance` from `lambda_function.py`
(lines 172-197): returns a validity flag and a warning message. -/
def validate_response_relevance (user_query generated_response : String)
    (references : List Ref) : Bool × String :=
  if references.isEmpty then
    (false, "No supporting references found")
  else if !(references.filter
      (fun ref => decide (ref.relevance_score.getD 0 < RELEVANCE_THRESHOLD))).isEmpty then
    (false, "Some references have low relevance scores")
  else if (references.filter (fun ref => ref.used_in_response)).isEmpty then
    (false, "Response may not be fully supported by references")
  else
    (true, "")

/-- The parsed JSON request body: `body.get('user_query')` and
`body.get('sessionId')`. -/
structure Body where
  user_query : Option String := none
  sessionId : Option String := none
deriving DecidableEq

/-- The `body` entry of the event: either a JSON string (whose parse
result is carried explicitly, `.error` modelling `json.loads` raising)
or an already-parsed dict. -/
inductive EventBody where
  | strBody (parse : Except String Body)
  | objBody (b : Body)

/-- The incoming event of `lambda_handler`: not a dict at all (raising
`ValueError` in `get_request_data`), a dict with a `body` entry, or a
dict without one, in which case the event itself is the body. -/
inductive Event where
  | notDict
  | withBody (b : EventBody)
  | noBody (b : Body)

/-- `get_request_data` from `lambda_function.py` (lines 212-236): extract
`(user_query, session_id)` from the event, re-raising parse failures
(`.error` carries the exception text). -/
def get_request_data (event : Event) : Except String (Option String × Option String) :=
  match event with
  | .notDict => .error "Invalid event format"
  | .withBody (.strBody (.error m)) => .error m
  | .withBody (.strBody (.ok b)) => .ok (b.user_query, b.sessionId)
  | .withBody (.objBody b) => .ok (b.user_query, b.sessionId)
  | .noBody b => .ok (b.user_query, b.sessionId)

/-- The retrieve-and-generate response: `output.text`, `citations`, and
the optional `sessionId`. -/
structure SvcResp where
  output_text : String
  citations : List Citation := []
  sessionId : Option String := none
deriving DecidableEq

/-- The `debug_info` dict of the 200 response body. -/
structure DebugInfo where
  query : String
  total_references : Nat
  relevant_references : Nat
  relevance_scores : List (ℚ × Bool)
  used_references : Nat
deriving DecidableEq

/-- The JSON body of a handler response, one constructor per shape the
code builds: the 200 success body, the 400 bodies carrying only `error`,
and the 500 body. -/
inductive RespBody where
  | ok (generated_response : String) (detailed_references : List Ref)
      (urlExpirationTime : ℚ) (sessionId : Option String) (sourceCount : Nat)
      (validation_status : String) (validation_message : String) (debug : DebugInfo)
  | clientErr (error : String)
  | serverErr (error : String) (generated_response : String)
      (detailed_references : List Ref) (sessionId : Option String)
deriving DecidableEq

/-- The CORS headers attached by `create_response`. -/
def cors_headers : List (String × String) :=
  [("Access-Control-Allow-Headers",
    "Content-Type,X-Amz-Date,Authorization,X-Api-Key,X-Amz-Security-Token"),
   ("Access-Control-Allow-Origin", "*"),
   ("Access-Control-Allow-Methods", "OPTIONS,POST"),
   ("Content-Type", "application/json")]

/-- An API Gateway response as built by `create_response`. -/
structure HttpResponse where
  statusCode : Nat
  headers : List (String × String)
  body : RespBody
deriving DecidableEq

/-- `create_response` from `lambda_function.py` (lines 199-210). -/
def create_response (status_code : Nat) (body : RespBody) : HttpResponse :=
  { statusCode := status_code, headers := cors_headers, body := body }

/-- `lambda_handler` from `lambda_function.py` (lines 238-373).  The two
fallible AWS calls are parameters: `svc` is the outcome of
`client.retrieve_and_generate` (the only statement inside the outer
`try` that can raise in this model), `rerank_outcome` the outcome of the
rerank model invocation (whose exceptions `rerank_references` swallows
itself), and `presign` the S3 presigning oracle.  `now` is the UTC time
at which the response is built, in seconds; `timedelta(hours=1)` is
3600 seconds. -/
def lambda_handler (event : Event) (now : ℚ)
    (presign : String → String → Nat → Option String)
    (svc : Except String SvcResp)
    (rerank_outcome : Except String (List RerankResult)) : HttpResponse :=
  match get_request_data event with
  | .error e => create_response 400 (.clientErr ("Error processing request: " ++ e))
  | .ok (user_query, session_id) =>
    if user_query.getD "" = "" then
      create_response 400 (.clientErr "user_query is required")
    else
      match svc with
      | .error e =>
        create_response 500 (.serverErr e
          "An error occurred while processing your request." [] session_id)
      | .ok s =>
        let q := user_query.getD ""
        let generated_response := s.output_text
        let references := extract_references s.citations generated_response
        let ranked_references :=
          rerank_references references q generated_response rerank_outcome
        let relevant_references := ranked_references.filter
          (fun ref => decide (RELEVANCE_THRESHOLD ≤ ref.relevance_score.getD 0))
        let references_with_urls := process_s3_urls presign relevant_references
        let v := validate_response_relevance q generated_response references_with_urls
        create_response 200 (.ok generated_response references_with_urls
          (now + 3600) s.sessionId references_with_urls.length
          (if v.1 then "valid" else "warning")
          (if v.1 then "" else v.2)
          { query := q,
            total_references := references.length,
            relevant_references := relevant_references.length,
            relevance_scores := references_with_urls.map
              (fun ref => (ref.relevance_score.getD 0, ref.used_in_response)),
            used_references :=
              (references_with_urls.filter (fun ref => ref.used_in_response)).length })

/-- A chat message as passed to `ChatHistoryManager.save_chat`
(`chat_history.py`): `message['content']`, `message['role']`,
`message.get('session_id')`, `message.get('references', [])` and
`message.get('conversation_id', ...)`.  JSON round-tripping of the
references list (`json.dumps` on write, `json.loads` on read) is the
identity in this model, so references stay a `List Ref`. -/
structure Message where
  role : String
  content : String
  session_id : Option String := none
  references : List Ref := []
  conversation_id : Option String := none
deriving DecidableEq

/-- One item of the `ChatHistory` DynamoDB table, whose key schema is
partition key `user_id` (string) and sort key `timestamp` (number), as
provisioned in `test-chat-storage.py`. -/
structure ChatItem where
  user_id : String
  timestamp : ℚ
  content : String
  role : String
  date : String
  session_id : Option String
  references : List Ref
  conversation_id : String
deriving DecidableEq

/-- The `ChatHistory` table state: its current items.  Key uniqueness is
maintained by `put_item` replacing any item with the same
`(user_id, timestamp)` key. -/
abbrev Table := List ChatItem

/-- DynamoDB `put_item` on the chat table: overwrite the item with the
same composite key, if any, and store the new item. -/
def put_item (t : Table) (i : ChatItem) : Table :=
  t.filter (fun j => !(decide (j.user_id = i.user_id ∧ j.timestamp = i.timestamp)))
    ++ [i]

/-- `ChatHistoryManager.save_chat` (`chat_history.py` lines 38-75): store
the message under partition key `user_id` and sort key the write-time
timestamp `now` (`Decimal(str(time.time()))`, an exact rational here).
`date_of` models `datetime.fromtimestamp(ts).strftime('%Y-%m-%d')`; the
default conversation id is `str(int(float(timestamp)))`, i.e. the
truncated timestamp (timestamps are nonnegative, so truncation is the
floor). -/
def chat_item_of (user_id : String) (message : Message) (now : ℚ)
    (date_of : ℚ → String) : ChatItem :=
  { user_id := user_id,
    timestamp := now,
    content := message.content,
    role := message.role,
    date := date_of now,
    session_id := message.session_id,
    references := message.references,
    conversation_id := message.conversation_id.getD (toString now.floor) }

/-- `ChatHistoryManager.save_chat` proper: `put_item` of the built item;
returns the new table and the `True` of the success path. -/
def save_chat (t : Table) (user_id : String) (message : Message) (now : ℚ)
    (date_of : ℚ → String) : Table × Bool :=
  (put_item t (chat_item_of user_id message now date_of), true)

/-- DynamoDB `query` with `KeyConditionExpression=Key('user_id').eq(u)`:
all items in the user's partition. -/
def query_user (t : Table) (u : String) : List ChatItem :=
  t.filter (fun i => decide (i.user_id = u))

/-- `ChatHistoryManager.delete_conversation` (`chat_history.py` lines
165-190): query the user's partition filtered to the conversation, then
delete each returned item by its `(user_id, timestamp)` composite key;
returns `True` on the success path. -/
def delete_conversation (t : Table) (user_id conversation_id : String) :
    Table × Bool :=
  let items := (query_user t user_id).filter
    (fun i => decide (i.conversation_id = conversation_id))
  (items.foldl
    (fun acc i => acc.filter
      (fun j => !(decide (j.user_id = user_id ∧ j.timestamp = i.timestamp))))
    t,
   true)

/-- Insert a message into the nested date -> conversation grouping of
`get_conversations`: find the date's entry (or append one), then the
conversation's entry under it (or append one), and append the item. -/
def add_conv (cs : List (String × List ChatItem)) (i : ChatItem) :
    List (String × List ChatItem) :=
  match cs with
  | [] => [(i.conversation_id, [i])]
  | q :: rest =>
    if q.1 = i.conversation_id then (q.1, q.2 ++ [i]) :: rest
    else q :: add_conv rest i

/-- The per-date step of the grouping of `get_conversations`. -/
def add_grouped (g : List (String × List (String × List ChatItem))) (i : ChatItem) :
    List (String × List (String × List ChatItem)) :=
  match g with
  | [] => [(i.date, [(i.conversation_id, [i])])]
  | p :: rest =>
    if p.1 = i.date then (p.1, add_conv p.2 i) :: rest
    else p :: add_grouped rest i

/-- Sorting relation for the final per-conversation sort of
`get_conversations`: ascending timestamps. -/
def ts_le (a b : ChatItem) : Prop := a.timestamp ≤ b.timestamp

instance ts_le_decidable : DecidableRel ts_le := fun a b => by
  unfold ts_le; infer_instance

instance ts_le_total : IsTotal ChatItem ts_le :=
  ⟨fun a b => le_total a.timestamp b.timestamp⟩

instance ts_le_trans : IsTrans ChatItem ts_le :=
  ⟨fun _ _ _ h1 h2 => le_trans h1 h2⟩

/-- `ChatHistoryManager.get_conversations` (`chat_history.py` lines
77-130) with `days=None`: query the user's partition, group the items by
date and then by conversation id, and sort each conversation by
timestamp (a stable sort, like Python's).  The Decimal-to-float
timestamp conversion and the JSON decoding of the references are the
identity in this model. -/
def get_conversations (t : Table) (user_id : String) :
    List (String × List (String × List ChatItem)) :=
  ((query_user t user_id).foldl add_grouped []).map
    (fun p => (p.1, p.2.map (fun q => (q.1, List.insertionSort ts_le q.2))))

/-- A message sits somewhere in the grouped result of
`get_conversations`. -/
def conv_mem (g : List (String × List (String × List ChatItem))) (m : ChatItem) :
    Prop :=
  ∃ p ∈ g, ∃ q ∈ p.2, m ∈ q.2

instance conv_mem_decidable (g : List (String × List (String × List ChatItem)))
    (m : ChatItem) : Decidable (conv_mem g m) := by
  unfold conv_mem; infer_instance

/-- All messages of a date entry's conversation lists. -/
def conv_msgs (cs : List (String × List ChatItem)) : List ChatItem :=
  (cs.map Prod.snd).flatten

/-- All messages anywhere in a grouped structure. -/
def grouped_msgs (g : List (String × List (String × List ChatItem))) :
    List ChatItem :=
  (g.map (fun p => conv_msgs p.2)).flatten

/-- One item of the `ChatFeedback` DynamoDB table
(`feedback_handler.py`), keyed by `feedback_id`; `categories` and
`correction` are present only when truthy values were supplied. -/
structure FeedbackItem where
  feedback_id : String
  timestamp : String
  session_id : String
  message_idx : Nat
  feedback_type : String
  message_content : String
  user_id : String
  categories : Option (List String) := none
  correction : Option String := none
deriving DecidableEq

/-- The two DynamoDB tables the application writes to: conversation
history (`ChatHistory`) and feedback (`ChatFeedback`). -/
structure Stores where
  chatHistory : Table
  chatFeedback : List FeedbackItem
deriving DecidableEq

/-- DynamoDB `put_item` on the feedback table: overwrite by
`feedback_id`. -/
def put_feedback (l : List FeedbackItem) (i : FeedbackItem) : List FeedbackItem :=
  l.filter (fun j => !(decide (j.feedback_id = i.feedback_id))) ++ [i]

/-- `FeedbackHandler._store_feedback` (`feedback_handler.py` lines
93-114): build the feedback item — `fresh_id` is the `uuid.uuid4()`
value, `now_iso` the timestamp, `sess`/`uid` the session-state values —
and put it into the `ChatFeedback` table only.  `categories` and
`correction` keys are added only when truthy (`if categories:` /
`if correction:`). -/
def store_feedback (st : Stores) (fresh_id now_iso sess uid : String)
    (message_idx : Nat) (feedback_type message_content : String)
    (categories : List String) (correction : Option String) : Stores :=
  let item : FeedbackItem :=
    { feedback_id := fresh_id,
      timestamp := now_iso,
      session_id := sess,
      message_idx := message_idx,
      feedback_type := feedback_type,
      message_content := message_content,
      user_id := uid,
      categories := if categories = [] then none else some categories,
      correction := match correction with
        | none => none
        | some c => if str_trim c = "" then none else some c }
  { st with chatFeedback := put_feedback st.chatFeedback item }

/-- Association-list read of a Streamlit `st.session_state` slot family
(one slot per message index). -/
def assoc_get {α : Type} (l : List (Nat × α)) (k : Nat) : Option α :=
  (l.find? (fun p => decide (p.1 = k))).map Prod.snd

/-- Association-list write of a session-state slot; extensionally the
dict assignment `st.session_state[key] = v`. -/
def assoc_set {α : Type} (l : List (Nat × α)) (k : Nat) (v : α) : List (Nat × α) :=
  (k, v) :: l.filter (fun p => !(decide (p.1 = k)))

/-- The feedback-related Streamlit session state
(`feedback_states`, `show_feedback_categories`, `selected_category`),
one slot per message index. -/
structure FbSession where
  feedback_states : List (Nat × String) := []
  show_feedback_categories : List (Nat × Bool) := []
  selected_category : List (Nat × String) := []

/-- `FeedbackHandler.handle_feedback` (`feedback_handler.py` lines
45-59), as invoked by the thumbs buttons: record the click in
`feedback_states`; a thumbs-down only opens the category panel, anything
else stores a `positive` feedback record immediately. -/
def handle_feedback (st : Stores) (fs : FbSession) (idx : Nat)
    (feedback_type message_content : String) (fresh_id now_iso sess uid : String) :
    Stores × FbSession :=
  let fs1 := { fs with feedback_states := assoc_set fs.feedback_states idx feedback_type }
  if feedback_type = "down" then
    (st, { fs1 with
      show_feedback_categories := assoc_set fs1.show_feedback_categories idx true })
  else
    (store_feedback st fresh_id now_iso sess uid idx "positive" message_content [] none,
     fs1)

/-- `FeedbackHandler.submit_negative_feedback` (`feedback_handler.py`
lines 75-90): store a `negative` record with the selected categories and
the correction (blank corrections are dropped before the call), then
close the category panel. -/
def submit_negative_feedback (st : Stores) (fs : FbSession) (idx : Nat)
    (message_content : String) (selected_categories : List String)
    (correction : String) (fresh_id now_iso sess uid : String) :
    Stores × FbSession :=
  (store_feedback st fresh_id now_iso sess uid idx "negative" message_content
    selected_categories (if str_trim correction = "" then none else some correction),
   { fs with
      feedback_states := assoc_set fs.feedback_states idx "down",
      show_feedback_categories := assoc_set fs.show_feedback_categories idx false })

/-- `ChatHistoryManager.save_chat` lifted to the pair of stores: it
touches only the `ChatHistory` table. -/
def save_chat_stores (st : Stores) (user_id : String) (message : Message)
    (now : ℚ) (date_of : ℚ → String) : Stores × Bool :=
  ({ st with chatHistory := (save_chat st.chatHistory user_id message now date_of).1 },
   (save_chat st.chatHistory user_id message now date_of).2)

/-- The reference-paging session state of `show_references`
(`app.py` lines 113-142 / `ui_components.py` lines 31-60): the selected
reference index per message (`selected_ref_{idx}`, a Python int) and the
button-clicked flag per message (`ref_button_clicked_{idx}`). -/
structure UiState where
  sel : List (Nat × Int) := []
  btn : List (Nat × Bool) := []

/-- The detail-panel part of `show_references`: the stored index of this
message (`st.session_state[ref_key]`, defaulting to 0 right after
initialisation), guarded by `0 <= index < len(references)`; inside the
guard the shown reference is `references[index]`, embedded as the
`List.get?` lookup whose `some` result the guard assures. -/
def render_selected (references : List Ref) (message_idx : Nat) (ui3 : UiState) :
    Option Ref :=
  if (0 : Int) ≤ (assoc_get ui3.sel message_idx).getD 0
      ∧ ((assoc_get ui3.sel message_idx).getD 0 : Int) < (references.length : Int)
  then references.get? ((assoc_get ui3.sel message_idx).getD 0).toNat
  else none

/-- One execution of `show_references` for one message: initialise the
two slots when absent, apply a button click (`click = some i` means the
button "Reference i+1" was pressed, which exists only for `i` below the
number of references), and render the detail panel via
`render_selected`.  Returns the new state and the rendered reference,
`none` when no panel is shown. -/
def show_references (references : List Ref) (message_idx : Nat) (ui : UiState)
    (click : Option Nat) : UiState × Option Ref :=
  if references = [] then (ui, none)
  else
    let ui1 := if (assoc_get ui.sel message_idx).isNone then
        { ui with sel := assoc_set ui.sel message_idx 0 } else ui
    let ui2 := if (assoc_get ui1.btn message_idx).isNone then
        { ui1 with btn := assoc_set ui1.btn message_idx false } else ui1
    let ui3 := match click with
      | some i =>
        { ui2 with
          sel := assoc_set ui2.sel message_idx (i : Int),
          btn := assoc_set ui2.btn message_idx true }
      | none => ui2
    (ui3, render_selected references message_idx ui3)

/-- The reference footer rendered by `display_reference_details`
(`ui_components.py` lines 89-98) when a presigned URL is present: the
f-string interpolating the URL, telling the user the link expires in 1
hour. -/
def reference_footer_html (presigned_url : String) : String :=
  ⟨("<div class=\"reference-footer\"> <a href=\"").data
    ++ presigned_url.data
    ++ ("\" target=\"_blank\">View Source Document</a> <p>Note: Source document link expires in 1 hour</p> </div>").data⟩


/-- Concrete event for claim C1's witness. -/
def c1_event : Event := .noBody { user_query := some "hi" }
/-- Concrete service response for claim C1's witness. -/
def c1_svc : SvcResp := { output_text := "answer" }
/-- Concrete event for claim C4's witness. -/
def c4_event : Event := .withBody (.objBody { user_query := some "hi" })
/-- Concrete service response for claim C4's witness, with one retrieved
reference so that the extracted list the filter drops is non-empty. -/
def c4_svc : SvcResp :=
  { output_text := "answer",
    citations := [{ retrievedReferences := [{ uri := some "s3://kb/doc", text := "t" }] }],
    sessionId := some "sess" }
/-- Concrete event for claim C6's witness. -/
def c6_event : Event := .withBody (.strBody (.ok { user_query := some "hi" }))
/-- Concrete service response for claim C6's witness. -/
def c6_svc : SvcResp := { output_text := "answer", sessionId := some "sess" }
/-- Concrete chat table for claim C7's witness: two messages of user
"alice" in two conversations. -/
def c7_table : Table :=
  [{ user_id := "alice", timestamp := 1, content := "hi", role := "user",
     date := "2026-01-01", session_id := none, references := [],
     conversation_id := "conv1" },
   { user_id := "alice", timestamp := 2, content := "yo", role := "user",
     date := "2026-01-01", session_id := none, references := [],
     conversation_id := "conv2" }]
/-- The message of the surviving conversation in claim C7's witness. -/
def c7_item2 : ChatItem :=
  { user_id := "alice", timestamp := 2, content := "yo", role := "user",
    date := "2026-01-01", session_id := none, references := [],
    conversation_id := "conv2" }
/-- Concrete references for claim C10's witness. -/
def c10_refs : List Ref :=
  [{ uri := some "s3://kb/a", snippet := "s1" },
   { uri := some "s3://kb/b", snippet := "s2" }]

/-!
Lemmas and the claim theorems.
-/

theorem snips_val_add_snip_self (sn : List (String × List String)) (u s : String) :
    snips_val (add_snip sn u s) u = snips_val sn u ++ [s] := by
  induction sn with
  | nil => simp [add_snip, snips_val]
  | cons p rest ih =>
    by_cases h : p.1 = u
    · simp [add_snip, snips_val, h]
    · simp [add_snip, snips_val, h, ih]

theorem snips_val_add_snip_ne (sn : List (String × List String)) {u u' : String}
    (s : String) (h : u' ≠ u) : snips_val (add_snip sn u s) u' = snips_val sn u' := by
  induction sn with
  | nil => simp [add_snip, snips_val, Ne.symm h]
  | cons p rest ih =>
    by_cases hp : p.1 = u
    · simp [add_snip, snips_val, hp, Ne.symm h]
    · by_cases hq : p.1 = u'
      · simp [add_snip, snips_val, hp, hq, h]
      · simp [add_snip, snips_val, hp, hq, ih]

theorem add_snip_keys (sn : List (String × List String)) (u s : String) :
    (add_snip sn u s).map Prod.fst =
      if u ∈ sn.map Prod.fst then sn.map Prod.fst else sn.map Prod.fst ++ [u] := by
  induction sn with
  | nil => simp [add_snip]
  | cons p rest ih =>
    by_cases hp : p.1 = u
    · simp [add_snip, hp]
    · by_cases hm : u ∈ rest.map Prod.fst
      · simp [add_snip, hp, ih, hm, Ne.symm hp]
      · simp [add_snip, hp, ih, hm, Ne.symm hp]

theorem mem_snips_val {sn : List (String × List String)}
    (hnd : (sn.map Prod.fst).Nodup) {u : String} {l : List String}
    (h : (u, l) ∈ sn) : snips_val sn u = l := by
  induction sn with
  | nil => cases h
  | cons p rest ih =>
    have hnd' := List.nodup_cons.mp hnd
    rcases List.mem_cons.mp h with h1 | h1
    · rw [← h1]; simp [snips_val]
    · have hne : p.1 ≠ u := by
        intro he
        exact hnd'.1 (he ▸ List.mem_map.mpr ⟨(u, l), h1, rfl⟩)
      simp [snips_val, hne, ih hnd'.2 h1]

theorem snippets_for_list_append (xs ys : List RetrievedRef) (u : String) :
    snippets_for_list (xs ++ ys) u =
      snippets_for_list xs u ++ snippets_for_list ys u := by
  simp [snippets_for_list, List.filterMap_append]

theorem estep_inv {generated_response : String} {pre : List RetrievedRef}
    {st : EState} (r : RetrievedRef)
    (h : ExtractInv generated_response pre st) :
    ExtractInv generated_response (pre ++ [r]) (estep generated_response st r) := by
  obtain ⟨hnd, hval, hkeys, hused⟩ := h
  cases hu : r.uri with
  | none =>
    have hstep : estep generated_response st r = st := by simp [estep, hu]
    have hsfl : ∀ u, snippets_for_list (pre ++ [r]) u = snippets_for_list pre u := by
      intro u
      rw [snippets_for_list_append]
      simp [snippets_for_list, hu]
    rw [hstep]
    exact ⟨hnd, fun u => (hsfl u) ▸ hval u, fun u => (hsfl u) ▸ hkeys u,
      fun u => (hsfl u) ▸ hused u⟩
  | some u0 =>
    have hstep : estep generated_response st r =
        { used := if used_hit generated_response (snippet_of r) then
            u0 :: st.used else st.used,
          snips := add_snip st.snips u0 (snippet_of r) } := by
      simp [estep, hu]
    have hsfl : ∀ u, snippets_for_list (pre ++ [r]) u =
        if u0 = u then snippets_for_list pre u ++ [snippet_of r]
        else snippets_for_list pre u := by
      intro u
      rw [snippets_for_list_append]
      by_cases he : u0 = u
      · simp [snippets_for_list, hu, he]
      · simp [snippets_for_list, hu, he]
    rw [hstep]
    refine ⟨?_, ?_, ?_, ?_⟩
    · show ((add_snip st.snips u0 (snippet_of r)).map Prod.fst).Nodup
      rw [add_snip_keys]
      by_cases hm : u0 ∈ st.snips.map Prod.fst
      · simpa [hm] using hnd
      · simp only [hm, if_false]
        rw [List.nodup_append]
        refine ⟨hnd, List.nodup_singleton _, ?_⟩
        intro x hx hx1
        rw [List.mem_singleton] at hx1
        exact hm (hx1 ▸ hx)
    · intro u
      show snips_val (add_snip st.snips u0 (snippet_of r)) u = _
      rw [hsfl u]
      by_cases he : u0 = u
      · subst he
        rw [if_pos rfl, snips_val_add_snip_self, hval]
      · rw [if_neg he, snips_val_add_snip_ne _ _ (Ne.symm he), hval]
    · intro u
      show u ∈ (add_snip st.snips u0 (snippet_of r)).map Prod.fst ↔ _
      rw [hsfl u, add_snip_keys]
      by_cases he : u0 = u
      · subst he
        by_cases hm : u0 ∈ st.snips.map Prod.fst
        · simp [hm]
        · simp [hm]
      · by_cases hm : u0 ∈ st.snips.map Prod.fst
        · rw [if_pos hm, if_neg he]
          exact hkeys u
        · rw [if_neg hm, if_neg he, List.mem_append, List.mem_singleton]
          constructor
          · rintro (h1 | h1)
            · exact (hkeys u).mp h1
            · exact absurd h1.symm he
          · intro h1
            exact Or.inl ((hkeys u).mpr h1)
    · intro u
      show u ∈ (if used_hit generated_response (snippet_of r) then
          u0 :: st.used else st.used) ↔ _
      rw [hsfl u]
      by_cases he : u0 = u
      · subst he
        cases hh : used_hit generated_response (snippet_of r) with
        | true =>
          rw [if_pos (rfl : (true : Bool) = true), if_pos (rfl : u0 = u0)]
          constructor
          · intro _
            exact ⟨snippet_of r,
              List.mem_append.mpr (Or.inr (List.mem_singleton.mpr rfl)), hh⟩
          · intro _
            exact List.mem_cons_self _ _
        | false =>
          rw [if_neg (by simp [hh]), if_pos rfl, hused u0]
          constructor
          · rintro ⟨s, hs, hhit⟩
            exact ⟨s, List.mem_append.mpr (Or.inl hs), hhit⟩
          · rintro ⟨s, hs, hhit⟩
            rcases List.mem_append.mp hs with h1 | h1
            · exact ⟨s, h1, hhit⟩
            · rw [List.mem_singleton] at h1
              rw [h1] at hhit
              rw [hhit] at hh
              cases hh
      · rw [if_neg he]
        have hmem : u ∈ (if used_hit generated_response (snippet_of r) then
            u0 :: st.used else st.used) ↔ u ∈ st.used := by
          cases hh : used_hit generated_response (snippet_of r) with
          | true =>
            rw [if_pos rfl, List.mem_cons]
            constructor
            · rintro (h1 | h1)
              · exact absurd h1.symm he
              · exact h1
            · exact Or.inr
          | false =>
            rw [if_neg (by simp [hh])]
        rw [hmem]
        exact hused u

theorem foldl_estep_inv (generated_response : String) :
    ∀ (rs pre : List RetrievedRef) (st : EState),
      ExtractInv generated_response pre st →
      ExtractInv generated_response (pre ++ rs) (rs.foldl (estep generated_response) st)
  | [], pre, st, h => by simpa using h
  | r :: rs, pre, st, h => by
    have h2 := foldl_estep_inv generated_response rs (pre ++ [r]) _ (estep_inv r h)
    simpa [List.append_assoc] using h2

theorem extract_inv (citations : List Citation) (generated_response : String) :
    ExtractInv generated_response (rrefs_of citations)
      (extract_state citations generated_response) := by
  have h0 : ExtractInv generated_response [] ⟨[], []⟩ := by
    refine ⟨List.nodup_nil, ?_, ?_, ?_⟩ <;> intro u <;>
      simp [snips_val, snippets_for_list]
  simpa using foldl_estep_inv generated_response (rrefs_of citations) [] _ h0

theorem used_hit_iff (generated_response s : String) :
    used_hit generated_response s = true ↔
      ∃ seg, seg ∈ split_dot s ∧ str_trim seg ≠ "" ∧
        (str_trim seg).data <:+: generated_response.data := by
  unfold used_hit is_substr
  rw [Bool.and_eq_true, List.any_eq_true]
  simp only [Bool.and_eq_true, decide_eq_true_eq]
  constructor
  · rintro ⟨-, seg, hseg, h1, h2⟩
    exact ⟨seg, hseg, h1, h2⟩
  · rintro ⟨seg, hseg, h1, h2⟩
    refine ⟨?_, seg, hseg, h1, h2⟩
    intro hs
    subst hs
    have hsp : split_dot "" = [""] := by decide
    rw [hsp, List.mem_singleton] at hseg
    subst hseg
    exact h1 (by decide)

theorem extract_references_score_none (citations : List Citation)
    (generated_response : String) :
    ∀ r ∈ extract_references citations generated_response,
      r.relevance_score = none ∧ r.rank = none ∧ r.presigned_url = none := by
  intro r hr
  obtain ⟨p, hp, rfl⟩ := List.mem_map.mp hr
  exact ⟨rfl, rfl, rfl⟩

/-- Claim C2, as stated, is false: `rerank_references` sorts by the pair
`(used_in_response, relevance_score)`, not by the relevance score alone.
With two references above the threshold where only the lower-scored one
is used in the response, the returned list has relevance score 0.4 at
position 0 and 0.9 at position 1, so position 0 carries a strictly
smaller score than position 1. -/
theorem rerank_references_not_score_sorted_cex :
    (rerank_references [c2_ref_a, c2_ref_b] "q" "bb" (.ok c2_results)).length = 2
    ∧ ((rerank_references [c2_ref_a, c2_ref_b] "q" "bb"
          (.ok c2_results)).getD 0 default).relevance_score.getD 0 <
        ((rerank_references [c2_ref_a, c2_ref_b] "q" "bb"
          (.ok c2_results)).getD 1 default).relevance_score.getD 0 := by
  decide

/-- Claim C2 (amended): when the rerank model invocation succeeds and
every result index is in range, the list `rerank_references` returns is
sorted in non-increasing lexicographic order of the pair
`(used_in_response, relevance_score)` — `List.Pairwise key_ge` says the
key relation holds for every pair of positions `i < j`.  The relevance
scores alone need not be non-increasing when a used reference follows an
unused one. -/
theorem rerank_references_sorted_by_used_then_score
    (references : List Ref) (user_query generated_response : String)
    (results : List RerankResult)
    (hidx : results.all
      (fun r => decide (r.index.getD 0 < references.length)) = true) :
    List.Pairwise key_ge
      (rerank_references references user_query generated_response (.ok results)) := by
  have hany : results.any
      (fun r => decide (references.length ≤ r.index.getD 0)) = false := by
    rw [List.any_eq_false]
    intro r hr
    have h1 := List.all_eq_true.mp hidx r hr
    simp only [decide_eq_true_eq] at h1
    simp only [decide_eq_true_eq]
    omega
  show List.Pairwise key_ge (match (Except.ok results : Except String _) with
    | .error _ => references
    | .ok results => _)
  simp only [rerank_references, hany, Bool.false_eq_true, if_false]
  exact List.sorted_insertionSort key_ge _

/-- Witness for the amended claim C2 at the concrete two-reference
input. -/
theorem rerank_references_sorted_by_used_then_score_witness :
    c2_results.all
      (fun r => decide (r.index.getD 0 < ([c2_ref_a, c2_ref_b] : List Ref).length))
      = true
    ∧ List.Pairwise key_ge
        (rerank_references [c2_ref_a, c2_ref_b] "q" "bb" (.ok c2_results)) :=
  ⟨by decide,
   rerank_references_sorted_by_used_then_score [c2_ref_a, c2_ref_b] "q" "bb"
     c2_results (by decide)⟩

/-- Claim C3: `extract_references` deduplicates by document URI (the
returned uris are distinct, and every retrieved uri appears), the
snippet of a uri's reference is the space-joined concatenation of at
most the first three snippets retrieved for that uri, and its
`used_in_response` flag is true exactly when some period-separated
sentence of one of that uri's snippets, stripped and non-empty, occurs
as a substring of the generated response. -/
theorem extract_references_dedup_and_usage (citations : List Citation)
    (generated_response : String) :
    ((extract_references citations generated_response).map Ref.uri).Nodup
    ∧ (∀ r, r ∈ extract_references citations generated_response →
        ∃ u, r.uri = some u
          ∧ snippets_for citations u ≠ []
          ∧ r.snippet = join_space ((snippets_for citations u).take 3)
          ∧ (r.used_in_response = true ↔
              ∃ s, s ∈ snippets_for citations u ∧ ∃ seg, seg ∈ split_dot s ∧
                str_trim seg ≠ "" ∧ (str_trim seg).data <:+: generated_response.data))
    ∧ (∀ u, snippets_for citations u ≠ [] →
        ∃ r, r ∈ extract_references citations generated_response ∧ r.uri = some u) := by
  obtain ⟨hnd, hval, hkeys, hused⟩ := extract_inv citations generated_response
  have hex : extract_references citations generated_response =
      (extract_state citations generated_response).snips.map (fun p =>
        { uri := some p.1,
          snippet := join_space (p.2.take 3),
          used_in_response :=
            decide (p.1 ∈ (extract_state citations generated_response).used) }) := rfl
  refine ⟨?_, ?_, ?_⟩
  · rw [hex, List.map_map]
    have h2 := hnd.map (Option.some_injective String)
    rw [List.map_map] at h2
    exact h2
  · intro r hr
    rw [hex] at hr
    obtain ⟨p, hp, rfl⟩ := List.mem_map.mp hr
    have hpm : (p.1, p.2) ∈ (extract_state citations generated_response).snips := hp
    have hv : snips_val (extract_state citations generated_response).snips p.1 = p.2 :=
      mem_snips_val hnd hpm
    have hsf : snippets_for citations p.1 = p.2 := by
      show snippets_for_list (rrefs_of citations) p.1 = p.2
      rw [← hval p.1]
      exact hv
    refine ⟨p.1, rfl, ?_, ?_, ?_⟩
    · exact (hkeys p.1).mp (List.mem_map.mpr ⟨p, hp, rfl⟩)
    · rw [hsf]
    · show decide (p.1 ∈ (extract_state citations generated_response).used) = true ↔ _
      rw [decide_eq_true_eq, hused p.1]
      constructor
      · rintro ⟨s, hs, hhit⟩
        obtain ⟨seg, hseg, h1, h2⟩ := (used_hit_iff generated_response s).mp hhit
        exact ⟨s, by rw [hsf]; rw [← hval p.1] at hs; rwa [hv] at hs, seg, hseg, h1, h2⟩
      · rintro ⟨s, hs, seg, hseg, h1, h2⟩
        rw [hsf] at hs
        refine ⟨s, ?_, (used_hit_iff generated_response s).mpr ⟨seg, hseg, h1, h2⟩⟩
        rw [← hval p.1, hv]
        exact hs
  · intro u hu
    have hk : u ∈ (extract_state citations generated_response).snips.map Prod.fst :=
      (hkeys u).mpr hu
    obtain ⟨p, hp, rfl⟩ := List.mem_map.mp hk
    rw [hex]
    exact ⟨_, List.mem_map.mpr ⟨p, hp, rfl⟩, rfl⟩

/-- Witness for claim C3: the two retrieved snippets of the single uri
of `c3_citations` are joined, and the sentence "hello there" of the
first snippet occurs in the generated response, so the flag is set. -/
theorem extract_references_dedup_and_usage_witness :
    ∃ u, c3_ref.uri = some u
      ∧ snippets_for c3_citations u ≠ []
      ∧ c3_ref.snippet = join_space ((snippets_for c3_citations u).take 3)
      ∧ (c3_ref.used_in_response = true ↔
          ∃ s, s ∈ snippets_for c3_citations u ∧ ∃ seg, seg ∈ split_dot s ∧
            str_trim seg ≠ "" ∧
            (str_trim seg).data <:+: ("well hello there friend" : String).data) :=
  (extract_references_dedup_and_usage c3_citations "well hello there friend").2.1
    c3_ref (by decide)

theorem lambda_handler_parse_error_eq (event : Event) (now : ℚ)
    (presign : String → String → Nat → Option String)
    (svc : Except String SvcResp) (oc : Except String (List RerankResult))
    {m : String} (hreq : get_request_data event = .error m) :
    lambda_handler event now presign svc oc =
      create_response 400 (.clientErr ("Error processing request: " ++ m)) := by
  simp only [lambda_handler, hreq]

theorem lambda_handler_empty_query_eq (event : Event) (now : ℚ)
    (presign : String → String → Nat → Option String)
    (svc : Except String SvcResp) (oc : Except String (List RerankResult))
    {uq : Option String} {sid : Option String}
    (hreq : get_request_data event = .ok (uq, sid)) (huq : uq.getD "" = "") :
    lambda_handler event now presign svc oc =
      create_response 400 (.clientErr "user_query is required") := by
  simp only [lambda_handler, hreq]
  rw [if_pos huq]

theorem lambda_handler_svc_error_eq (event : Event) (now : ℚ)
    (presign : String → String → Nat → Option String)
    (e : String) (oc : Except String (List RerankResult))
    {q : String} {sid : Option String}
    (hreq : get_request_data event = .ok (some q, sid)) (hq : q ≠ "") :
    lambda_handler event now presign (.error e) oc =
      create_response 500 (.serverErr e
        "An error occurred while processing your request." [] sid) := by
  simp only [lambda_handler, hreq, Option.getD_some]
  rw [if_neg hq]

theorem lambda_handler_ok_eq (event : Event) (now : ℚ)
    (presign : String → String → Nat → Option String) (q : String)
    (sid : Option String) (s : SvcResp) (oc : Except String (List RerankResult))
    (hreq : get_request_data event = .ok (some q, sid)) (hq : q ≠ "") :
    lambda_handler event now presign (.ok s) oc =
      (let references := extract_references s.citations s.output_text
       let ranked := rerank_references references q s.output_text oc
       let relevant := ranked.filter
         (fun ref => decide (RELEVANCE_THRESHOLD ≤ ref.relevance_score.getD 0))
       let withUrls := process_s3_urls presign relevant
       let v := validate_response_relevance q s.output_text withUrls
       create_response 200 (.ok s.output_text withUrls (now + 3600) s.sessionId
         withUrls.length (if v.1 then "valid" else "warning")
         (if v.1 then "" else v.2)
         { query := q,
           total_references := references.length,
           relevant_references := relevant.length,
           relevance_scores := withUrls.map
             (fun ref => (ref.relevance_score.getD 0, ref.used_in_response)),
           used_references :=
             (withUrls.filter (fun ref => ref.used_in_response)).length })) := by
  simp only [lambda_handler, hreq, Option.getD_some]
  rw [if_neg hq]

/-- Claim C1: for an event whose parsed body carries a non-empty
user_query, when the retrieve-and-generate call succeeds (`.ok s`) and
post-processing succeeds (rerank outcome `.ok results`), the handler
returns statusCode 200 with the generated text, a detailed_references
list obtained by extraction, then reranking, then relevance filtering,
then URL signing — in that order — a sourceCount equal to its length,
and the sessionId of the service response. -/
theorem lambda_handler_success_pipeline (event : Event) (now : ℚ)
    (presign : String → String → Nat → Option String) (q : String)
    (sid : Option String) (s : SvcResp) (results : List RerankResult)
    (hreq : get_request_data event = .ok (some q, sid)) (hq : q ≠ "") :
    ∃ dref vstat vmsg dbg,
      dref = process_s3_urls presign
        ((rerank_references (extract_references s.citations s.output_text) q
            s.output_text (.ok results)).filter
          (fun ref => decide (RELEVANCE_THRESHOLD ≤ ref.relevance_score.getD 0)))
      ∧ lambda_handler event now presign (.ok s) (.ok results) =
          create_response 200 (.ok s.output_text dref (now + 3600) s.sessionId
            dref.length vstat vmsg dbg) := by
  rw [lambda_handler_ok_eq event now presign q sid s (.ok results) hreq hq]
  exact ⟨_, _, _, _, rfl, rfl⟩



/-- Witness for claim C1 at a concrete event and service response. -/
theorem lambda_handler_success_pipeline_witness :
    ∃ dref vstat vmsg dbg,
      dref = process_s3_urls (fun _ _ _ => none)
        ((rerank_references (extract_references c1_svc.citations c1_svc.output_text)
            "hi" c1_svc.output_text (.ok [])).filter
          (fun ref => decide (RELEVANCE_THRESHOLD ≤ ref.relevance_score.getD 0)))
      ∧ lambda_handler c1_event 0 (fun _ _ _ => none) (.ok c1_svc) (.ok []) =
          create_response 200 (.ok c1_svc.output_text dref (0 + 3600)
            c1_svc.sessionId dref.length vstat vmsg dbg) :=
  lambda_handler_success_pipeline c1_event 0 (fun _ _ _ => none) "hi" none c1_svc []
    rfl (by decide)

/-- Claim C4: if the rerank invocation raises, `rerank_references`
returns its input unchanged; the references coming out of
`extract_references` carry no relevance_score, so the handler's
filter (score defaulting to 0 against the 0.3 threshold) drops all of
them, and the 200 response has an empty detailed_references list and
validation_status "warning". -/
theorem rerank_failure_empty_references_warning (event : Event) (now : ℚ)
    (presign : String → String → Nat → Option String) (q : String)
    (sid : Option String) (s : SvcResp) (em : String)
    (hreq : get_request_data event = .ok (some q, sid)) (hq : q ≠ "") :
    rerank_references (extract_references s.citations s.output_text) q
      s.output_text (.error em) = extract_references s.citations s.output_text
    ∧ ∃ vmsg dbg,
        lambda_handler event now presign (.ok s) (.error em) =
          create_response 200 (.ok s.output_text [] (now + 3600) s.sessionId 0
            "warning" vmsg dbg) := by
  have hfilter : (extract_references s.citations s.output_text).filter
      (fun ref => decide (RELEVANCE_THRESHOLD ≤ ref.relevance_score.getD 0)) = [] := by
    rw [List.filter_eq_nil_iff]
    intro r hr
    have h1 := (extract_references_score_none s.citations s.output_text r hr).1
    rw [h1]
    decide
  refine ⟨rfl, "No supporting references found",
    { query := q,
      total_references := (extract_references s.citations s.output_text).length,
      relevant_references := 0,
      relevance_scores := [],
      used_references := 0 }, ?_⟩
  rw [lambda_handler_ok_eq event now presign q sid s (.error em) hreq hq]
  simp only [rerank_references, hfilter]
  rfl



/-- Witness for claim C4 at a concrete event and service response. -/
theorem rerank_failure_empty_references_warning_witness :
    rerank_references (extract_references c4_svc.citations c4_svc.output_text) "hi"
      c4_svc.output_text (.error "boom")
      = extract_references c4_svc.citations c4_svc.output_text
    ∧ ∃ vmsg dbg,
        lambda_handler c4_event 7 (fun _ _ _ => some "u") (.ok c4_svc) (.error "boom") =
          create_response 200 (.ok c4_svc.output_text [] (7 + 3600) c4_svc.sessionId 0
            "warning" vmsg dbg) :=
  rerank_failure_empty_references_warning c4_event 7 (fun _ _ _ => some "u") "hi" none
    c4_svc "boom" rfl (by decide)

/-- Claim C9: a parsed body whose user_query is missing or empty yields
statusCode 400 with error "user_query is required"; an event whose body
string fails to parse yields statusCode 400 with an error-processing
message; a failure of the retrieve-and-generate call after validation
yields statusCode 500 with an empty detailed_references list; and on
every input the handler returns a response (status 200, 400 or 500)
rather than propagating an exception. -/
theorem lambda_handler_error_handling :
    (∀ event now presign svc oc uq sid,
      get_request_data event = .ok (uq, sid) → (uq = none ∨ uq = some "") →
      lambda_handler event now presign svc oc =
        create_response 400 (.clientErr "user_query is required"))
    ∧ (∀ m now presign svc oc,
      lambda_handler (.withBody (.strBody (.error m))) now presign svc oc =
        create_response 400 (.clientErr ("Error processing request: " ++ m)))
    ∧ (∀ event now presign e oc q sid,
      get_request_data event = .ok (some q, sid) → q ≠ "" →
      lambda_handler event now presign (.error e) oc =
        create_response 500 (.serverErr e
          "An error occurred while processing your request." [] sid))
    ∧ (∀ event now presign svc oc,
      (lambda_handler event now presign svc oc).statusCode = 200 ∨
      (lambda_handler event now presign svc oc).statusCode = 400 ∨
      (lambda_handler event now presign svc oc).statusCode = 500) := by
  refine ⟨?_, ?_, ?_, ?_⟩
  · intro event now presign svc oc uq sid hreq huq
    apply lambda_handler_empty_query_eq event now presign svc oc hreq
    rcases huq with h | h <;> rw [h] <;> rfl
  · intro m now presign svc oc
    exact lambda_handler_parse_error_eq _ _ _ _ _ rfl
  · intro event now presign e oc q sid hreq hq
    exact lambda_handler_svc_error_eq _ _ _ _ _ hreq hq
  · intro event now presign svc oc
    cases hreq : get_request_data event with
    | error m =>
      rw [lambda_handler_parse_error_eq _ _ _ _ _ hreq]
      exact Or.inr (Or.inl rfl)
    | ok p =>
      obtain ⟨uq, sid⟩ := p
      by_cases huq : uq.getD "" = ""
      · rw [lambda_handler_empty_query_eq _ _ _ _ _ hreq huq]
        exact Or.inr (Or.inl rfl)
      · cases uq with
        | none => simp [Option.getD] at huq
        | some q =>
          have hq : q ≠ "" := by simpa using huq
          cases svc with
          | error e =>
            rw [lambda_handler_svc_error_eq _ _ _ _ _ hreq hq]
            exact Or.inr (Or.inr rfl)
          | ok s =>
            rw [lambda_handler_ok_eq _ _ _ _ _ _ _ hreq hq]
            exact Or.inl rfl

/-- Witness for claim C9: a body without user_query yields the 400
required-field response. -/
theorem lambda_handler_error_handling_witness :
    lambda_handler (.noBody {}) 0 (fun _ _ _ => none)
        (.ok { output_text := "a" }) (.ok []) =
      create_response 400 (.clientErr "user_query is required") :=
  lambda_handler_error_handling.1 (.noBody {}) 0 (fun _ _ _ => none)
    (.ok { output_text := "a" }) (.ok []) none none rfl (Or.inl rfl)

theorem infix_append_left {α : Type} {l l₂ : List α} (l₁ : List α)
    (h : l <:+: l₂) : l <:+: l₁ ++ l₂ := by
  obtain ⟨s, t, rfl⟩ := h
  exact ⟨l₁ ++ s, t, by simp⟩

/-- Claim C5: `process_s3_urls` returns exactly those input references
that have a `uri` key and for which presigned-URL generation succeeds
(with a truthy URL), in their original relative order
(`List.Forall₂` pairs the output with the filtered input positionally);
each output reference agrees with its input reference on every field
other than `presigned_url`, and has `presigned_url` set to the generated
URL. -/
theorem process_s3_urls_exact_frame (presign : String → String → Nat → Option String)
    (references : List Ref) :
    List.Forall₂
      (fun r' r => r'.uri = r.uri ∧ r'.snippet = r.snippet
        ∧ r'.used_in_response = r.used_in_response
        ∧ r'.relevance_score = r.relevance_score ∧ r'.rank = r.rank
        ∧ ∃ uri url, r.uri = some uri
            ∧ presign (s3_bucket uri) (s3_key uri) 1800 = some url ∧ url ≠ ""
            ∧ r'.presigned_url = some url)
      (process_s3_urls presign references)
      (references.filter (presign_succeeds presign)) := by
  induction references with
  | nil => exact List.Forall₂.nil
  | cons r rest ih =>
    show List.Forall₂ _ (List.filterMap (process_one presign) (r :: rest))
      (List.filter (presign_succeeds presign) (r :: rest))
    rw [List.filterMap_cons, List.filter_cons]
    cases hu : r.uri with
    | none =>
      have h1 : process_one presign r = none := by simp [process_one, hu]
      have h2 : presign_succeeds presign r = false := by simp [presign_succeeds, hu]
      simp only [h1, h2, Bool.false_eq_true, if_false]
      exact ih
    | some uri =>
      cases hp : presign (s3_bucket uri) (s3_key uri) 1800 with
      | none =>
        have h1 : process_one presign r = none := by
          simp [process_one, generate_presigned_url, hu, hp]
        have h2 : presign_succeeds presign r = false := by
          simp [presign_succeeds, hu, hp]
        simp only [h1, h2, Bool.false_eq_true, if_false]
        exact ih
      | some url =>
        by_cases hurl : url = ""
        · subst hurl
          have h1 : process_one presign r = none := by
            simp [process_one, generate_presigned_url, hu, hp]
          have h2 : presign_succeeds presign r = false := by
            simp [presign_succeeds, hu, hp]
          simp only [h1, h2, Bool.false_eq_true, if_false]
          exact ih
        · have h1 : process_one presign r =
              some { r with presigned_url := some url } := by
            simp [process_one, generate_presigned_url, hu, hp, hurl]
          have h2 : presign_succeeds presign r = true := by
            simp [presign_succeeds, hu, hp, hurl]
          simp only [h1, h2, if_true]
          exact List.Forall₂.cons ⟨rfl, rfl, rfl, rfl, rfl, uri, url, hu, hp, hurl, rfl⟩ ih

/-- Claim C6: every presigned URL is requested with the fixed expiration
`PRESIGN_EXPIRATION = 1800` seconds — `generate_presigned_url` defaults
to it and `process_s3_urls` only ever consults the object store at that
expiration — while the 200 response reports `urlExpirationTime` of
response time plus 3600 seconds and the UI footer tells the user the
link expires in 1 hour; so whenever the response carries at least one
signed reference, the reported expiration lies strictly after the end of
the URL's actual signed lifetime. -/
theorem presign_expiration_mismatch :
    (∀ presign bucket key,
      generate_presigned_url presign bucket key = presign bucket key PRESIGN_EXPIRATION)
    ∧ (∀ p₁ p₂ refs,
        (∀ b k, p₁ b k PRESIGN_EXPIRATION = p₂ b k PRESIGN_EXPIRATION) →
        process_s3_urls p₁ refs = process_s3_urls p₂ refs)
    ∧ (∀ event now presign q sid s oc,
        get_request_data event = .ok (some q, sid) → q ≠ "" →
        ∃ dref vstat vmsg dbg,
          lambda_handler event now presign (.ok s) oc =
            create_response 200 (.ok s.output_text dref (now + 3600) s.sessionId
              dref.length vstat vmsg dbg)
          ∧ (dref ≠ [] → now + (PRESIGN_EXPIRATION : ℚ) < now + 3600))
    ∧ (∀ url, is_substr "expires in 1 hour" (reference_footer_html url) = true) := by
  have hpost : ("expires in 1 hour" : String).data <:+:
      ("\" target=\"_blank\">View Source Document</a> <p>Note: Source document link expires in 1 hour</p> </div>" : String).data := by
    refine ⟨("\" target=\"_blank\">View Source Document</a> <p>Note: Source document link " : String).data, ("</p> </div>" : String).data, ?_⟩
    decide
  refine ⟨?_, ?_, ?_, ?_⟩
  · intro presign bucket key
    rfl
  · intro p₁ p₂ refs h
    have hone : ∀ r, process_one p₁ r = process_one p₂ r := by
      intro r
      unfold process_one
      cases hu : r.uri with
      | none => rfl
      | some uri =>
        have he : generate_presigned_url p₁ (s3_bucket uri) (s3_key uri) =
            generate_presigned_url p₂ (s3_bucket uri) (s3_key uri) := h _ _
        simp only [he]
    show refs.filterMap (process_one p₁) = refs.filterMap (process_one p₂)
    rw [funext hone]
  · intro event now presign q sid s oc hreq hq
    rw [lambda_handler_ok_eq event now presign q sid s oc hreq hq]
    refine ⟨_, _, _, _, rfl, ?_⟩
    intro _
    have h1 : ((PRESIGN_EXPIRATION : Nat) : ℚ) < 3600 := by
      norm_num [PRESIGN_EXPIRATION]
    linarith
  · intro url
    apply decide_eq_true
    exact infix_append_left _ hpost



/-- Witness for claim C6's handler part at a concrete event. -/
theorem presign_expiration_mismatch_witness :
    ∃ dref vstat vmsg dbg,
      lambda_handler c6_event 0 (fun _ _ _ => some "https://signed")
          (.ok c6_svc) (.ok []) =
        create_response 200 (.ok c6_svc.output_text dref (0 + 3600)
          c6_svc.sessionId dref.length vstat vmsg dbg)
      ∧ (dref ≠ [] → (0 : ℚ) + (PRESIGN_EXPIRATION : ℚ) < 0 + 3600) :=
  presign_expiration_mismatch.2.2.1 c6_event 0 (fun _ _ _ => some "https://signed")
    "hi" none c6_svc (.ok []) rfl (by decide)

theorem foldl_delete_mem (u : String) :
    ∀ (items : List ChatItem) (acc : Table) (j : ChatItem),
      j ∈ items.foldl (fun acc i => acc.filter
        (fun j' => !(decide (j'.user_id = u ∧ j'.timestamp = i.timestamp)))) acc →
      j ∈ acc ∧ ∀ i ∈ items, ¬(j.user_id = u ∧ j.timestamp = i.timestamp)
  | [], _, _, h => ⟨h, by simp⟩
  | i :: items, acc, j, h => by
    obtain ⟨h3, h4⟩ := foldl_delete_mem u items _ j h
    rw [List.mem_filter] at h3
    obtain ⟨h5, h6⟩ := h3
    refine ⟨h5, ?_⟩
    intro i2 hi2
    rcases List.mem_cons.mp hi2 with rfl | hi3
    · simp only [Bool.not_eq_true', decide_eq_false_iff_not] at h6
      exact h6
    · exact h4 i2 hi3

theorem delete_conversation_not_mem (t : Table) (u c : String) :
    ∀ j ∈ (delete_conversation t u c).1, ¬(j.user_id = u ∧ j.conversation_id = c) := by
  intro j hj hc
  obtain ⟨hju, hjc⟩ := hc
  obtain ⟨hjt, hall⟩ := foldl_delete_mem u
    ((query_user t u).filter (fun i => decide (i.conversation_id = c))) t j hj
  have hji : j ∈ (query_user t u).filter (fun i => decide (i.conversation_id = c)) := by
    rw [List.mem_filter]
    refine ⟨?_, by simpa using hjc⟩
    rw [query_user, List.mem_filter]
    exact ⟨hjt, by simpa using hju⟩
  exact hall j hji ⟨hju, rfl⟩

theorem mem_conv_msgs_add_conv (cs : List (String × List ChatItem)) (i m : ChatItem)
    (h : m ∈ conv_msgs (add_conv cs i)) : m ∈ conv_msgs cs ∨ m = i := by
  induction cs with
  | nil =>
    simp [add_conv, conv_msgs] at h
    exact Or.inr h
  | cons q rest ih =>
    rw [show add_conv (q :: rest) i = if q.1 = i.conversation_id
        then (q.1, q.2 ++ [i]) :: rest else q :: add_conv rest i from rfl] at h
    by_cases hq : q.1 = i.conversation_id
    · rw [if_pos hq] at h
      simp only [conv_msgs, List.map_cons, List.flatten_cons] at h ⊢
      rcases List.mem_append.mp h with h1 | h1
      · rcases List.mem_append.mp h1 with h2 | h2
        · exact Or.inl (List.mem_append.mpr (Or.inl h2))
        · exact Or.inr (List.mem_singleton.mp h2)
      · exact Or.inl (List.mem_append.mpr (Or.inr h1))
    · rw [if_neg hq] at h
      simp only [conv_msgs, List.map_cons, List.flatten_cons] at h ⊢
      rcases List.mem_append.mp h with h1 | h1
      · exact Or.inl (List.mem_append.mpr (Or.inl h1))
      · rcases ih h1 with h2 | h2
        · exact Or.inl (List.mem_append.mpr (Or.inr h2))
        · exact Or.inr h2

theorem mem_grouped_add (g : List (String × List (String × List ChatItem)))
    (i m : ChatItem) (h : m ∈ grouped_msgs (add_grouped g i)) :
    m ∈ grouped_msgs g ∨ m = i := by
  induction g with
  | nil =>
    simp [add_grouped, grouped_msgs, conv_msgs] at h
    exact Or.inr h
  | cons p rest ih =>
    rw [show add_grouped (p :: rest) i = if p.1 = i.date
        then (p.1, add_conv p.2 i) :: rest else p :: add_grouped rest i from rfl] at h
    by_cases hp : p.1 = i.date
    · rw [if_pos hp] at h
      simp only [grouped_msgs, List.map_cons, List.flatten_cons] at h ⊢
      rcases List.mem_append.mp h with h1 | h1
      · rcases mem_conv_msgs_add_conv p.2 i m h1 with h2 | h2
        · exact Or.inl (List.mem_append.mpr (Or.inl h2))
        · exact Or.inr h2
      · exact Or.inl (List.mem_append.mpr (Or.inr h1))
    · rw [if_neg hp] at h
      simp only [grouped_msgs, List.map_cons, List.flatten_cons] at h ⊢
      rcases List.mem_append.mp h with h1 | h1
      · exact Or.inl (List.mem_append.mpr (Or.inl h1))
      · rcases ih h1 with h2 | h2
        · exact Or.inl (List.mem_append.mpr (Or.inr h2))
        · exact Or.inr h2

theorem mem_grouped_foldl :
    ∀ (items : List ChatItem) (acc : List (String × List (String × List ChatItem)))
      (m : ChatItem), m ∈ grouped_msgs (items.foldl add_grouped acc) →
      m ∈ grouped_msgs acc ∨ m ∈ items
  | [], _, _, h => Or.inl h
  | i :: items, acc, m, h => by
    rcases mem_grouped_foldl items (add_grouped acc i) m h with h3 | h3
    · rcases mem_grouped_add acc i m h3 with h4 | h4
      · exact Or.inl h4
      · exact Or.inr (h4 ▸ List.mem_cons_self i items)
    · exact Or.inr (List.mem_cons_of_mem _ h3)

theorem conv_mem_get_conversations (t : Table) (u : String) (m : ChatItem)
    (h : conv_mem (get_conversations t u) m) : m ∈ query_user t u := by
  obtain ⟨p, hp, q, hq, hm⟩ := h
  unfold get_conversations at hp
  obtain ⟨p0, hp0, rfl⟩ := List.mem_map.mp hp
  obtain ⟨q0, hq0, rfl⟩ := List.mem_map.mp hq
  have hm0 : m ∈ q0.2 := (List.perm_insertionSort ts_le q0.2).subset hm
  have hg : m ∈ grouped_msgs ((query_user t u).foldl add_grouped []) := by
    unfold grouped_msgs conv_msgs
    rw [List.mem_flatten]
    refine ⟨(p0.2.map Prod.snd).flatten, List.mem_map.mpr ⟨p0, hp0, rfl⟩, ?_⟩
    rw [List.mem_flatten]
    exact ⟨q0.2, List.mem_map.mpr ⟨q0, hq0, rfl⟩, hm0⟩
  rcases mem_grouped_foldl (query_user t u) [] m hg with h1 | h1
  · simp [grouped_msgs] at h1
  · exact h1

/-- Claim C7: `save_chat` stores the message under the composite key
`(user_id, write-time timestamp)` of the `ChatHistory` table, and
`delete_conversation` deletes the queried conversation items by that
same composite key and returns `True`; consequently no message of the
deleted conversation remains anywhere in `get_conversations` of that
user. -/
theorem save_chat_key_and_delete_conversation (t : Table) (user_id : String)
    (message : Message) (now : ℚ) (date_of : ℚ → String) (cid : String)
    (m : ChatItem) :
    (∃ i, i ∈ (save_chat t user_id message now date_of).1
       ∧ i.user_id = user_id ∧ i.timestamp = now ∧ i.content = message.content
       ∧ i.role = message.role)
    ∧ (delete_conversation t user_id cid).2 = true
    ∧ (conv_mem (get_conversations (delete_conversation t user_id cid).1 user_id) m →
        m.conversation_id ≠ cid) := by
  refine ⟨?_, rfl, ?_⟩
  · have hitem : chat_item_of user_id message now date_of
        ∈ (save_chat t user_id message now date_of).1 :=
      List.mem_append.mpr (Or.inr (List.mem_singleton.mpr rfl))
    exact ⟨_, hitem, rfl, rfl, rfl, rfl⟩
  · intro h hcid
    have hq := conv_mem_get_conversations _ _ _ h
    rw [query_user, List.mem_filter] at hq
    obtain ⟨hmem, hu⟩ := hq
    exact delete_conversation_not_mem t user_id cid m hmem
      ⟨by simpa using hu, hcid⟩



/-- Witness for claim C7: after deleting conversation "conv1" of
"alice", the remaining grouped message is not from "conv1". -/
theorem save_chat_key_and_delete_conversation_witness :
    c7_item2.conversation_id ≠ "conv1" :=
  (save_chat_key_and_delete_conversation c7_table "alice"
      { role := "user", content := "m" } 3 (fun _ => "2026-01-02") "conv1"
      c7_item2).2.2 (by decide)

theorem put_feedback_fresh (l : List FeedbackItem) (i : FeedbackItem)
    (hfresh : ∀ j ∈ l, j.feedback_id ≠ i.feedback_id) :
    put_feedback l i = l ++ [i] := by
  unfold put_feedback
  congr 1
  apply List.filter_eq_self.mpr
  intro j hj
  simpa using hfresh j hj

/-- Claim C8: conversation history and feedback go to two distinct
tables.  `save_chat` (lifted to the pair of stores) leaves the
`ChatFeedback` table untouched; a thumbs-up click stores exactly one
`positive` record, keyed by the fresh feedback id, in `ChatFeedback`
only; a thumbs-down click alone stores nothing; a submitted thumbs-down
stores exactly one `negative` record with the selected categories,
again in `ChatFeedback` only. -/
theorem feedback_and_history_separation (st : Stores) (fs : FbSession)
    (user_id : String) (message : Message) (now : ℚ) (date_of : ℚ → String)
    (idx : Nat) (content : String) (fresh_id now_iso sess uid : String)
    (cats : List String) (correction : String)
    (hfresh : ∀ j ∈ st.chatFeedback, j.feedback_id ≠ fresh_id) :
    (save_chat_stores st user_id message now date_of).1.chatFeedback
      = st.chatFeedback
    ∧ (handle_feedback st fs idx "up" content fresh_id now_iso sess uid).1.chatHistory
      = st.chatHistory
    ∧ (∃ fi, (handle_feedback st fs idx "up" content fresh_id now_iso
          sess uid).1.chatFeedback = st.chatFeedback ++ [fi]
        ∧ fi.feedback_id = fresh_id ∧ fi.feedback_type = "positive")
    ∧ (handle_feedback st fs idx "down" content fresh_id now_iso sess uid).1 = st
    ∧ (submit_negative_feedback st fs idx content cats correction
          fresh_id now_iso sess uid).1.chatHistory = st.chatHistory
    ∧ (∃ fi, (submit_negative_feedback st fs idx content cats correction
          fresh_id now_iso sess uid).1.chatFeedback = st.chatFeedback ++ [fi]
        ∧ fi.feedback_id = fresh_id ∧ fi.feedback_type = "negative"
        ∧ (cats ≠ [] → fi.categories = some cats)) := by
  have hne : ("up" : String) ≠ "down" := by decide
  have hup : handle_feedback st fs idx "up" content fresh_id now_iso sess uid =
      (store_feedback st fresh_id now_iso sess uid idx "positive" content [] none,
       { fs with feedback_states := assoc_set fs.feedback_states idx "up" }) := by
    unfold handle_feedback
    rw [if_neg hne]
  refine ⟨rfl, ?_, ?_, ?_, rfl, ?_⟩
  · rw [hup]
    rfl
  · rw [hup]
    exact ⟨_, put_feedback_fresh st.chatFeedback _ (fun j hj => hfresh j hj),
      rfl, rfl⟩
  · unfold handle_feedback
    rw [if_pos rfl]
  · refine ⟨_, put_feedback_fresh st.chatFeedback _ (fun j hj => hfresh j hj),
      rfl, rfl, ?_⟩
    intro hc
    show (if cats = [] then none else some cats) = some cats
    rw [if_neg hc]

/-- Witness for claim C8 at empty stores and session state. -/
theorem feedback_and_history_separation_witness :
    (save_chat_stores ⟨[], []⟩ "alice" { role := "user", content := "m" } 1
        (fun _ => "d")).1.chatFeedback = ([] : List FeedbackItem)
    ∧ (handle_feedback ⟨[], []⟩ {} 0 "up" "msg" "fid" "t" "s" "alice").1.chatHistory
      = ([] : Table)
    ∧ (∃ fi, (handle_feedback ⟨[], []⟩ {} 0 "up" "msg" "fid" "t" "s"
          "alice").1.chatFeedback = ([] : List FeedbackItem) ++ [fi]
        ∧ fi.feedback_id = "fid" ∧ fi.feedback_type = "positive")
    ∧ (handle_feedback ⟨[], []⟩ {} 0 "down" "msg" "fid" "t" "s" "alice").1
        = (⟨[], []⟩ : Stores)
    ∧ (submit_negative_feedback ⟨[], []⟩ {} 0 "msg" ["Other"] "fix" "fid" "t" "s"
          "alice").1.chatHistory = ([] : Table)
    ∧ (∃ fi, (submit_negative_feedback ⟨[], []⟩ {} 0 "msg" ["Other"] "fix" "fid"
          "t" "s" "alice").1.chatFeedback = ([] : List FeedbackItem) ++ [fi]
        ∧ fi.feedback_id = "fid" ∧ fi.feedback_type = "negative"
        ∧ ((["Other"] : List String) ≠ [] → fi.categories = some ["Other"])) :=
  feedback_and_history_separation ⟨[], []⟩ {} "alice"
    { role := "user", content := "m" } 1 (fun _ => "d") 0 "msg" "fid" "t" "s"
    "alice" ["Other"] "fix" (by simp)

theorem assoc_get_set_self {α : Type} (l : List (Nat × α)) (k : Nat) (v : α) :
    assoc_get (assoc_set l k v) k = some v := by
  unfold assoc_get assoc_set
  rw [List.find?_cons_of_pos _ (by simp)]
  rfl

theorem assoc_get_set_ne {α : Type} (l : List (Nat × α)) {k k' : Nat} (v : α)
    (h : k' ≠ k) : assoc_get (assoc_set l k v) k' = assoc_get l k' := by
  unfold assoc_get assoc_set
  rw [List.find?_cons_of_neg _ (by simp [Ne.symm h])]
  congr 1
  induction l with
  | nil => rfl
  | cons a rest ih =>
    by_cases ha : a.1 = k'
    · have hak : a.1 ≠ k := by rw [ha]; exact h
      rw [List.filter_cons_of_pos (by simp [hak]),
        List.find?_cons_of_pos _ (by simp [ha]),
        List.find?_cons_of_pos _ (by simp [ha])]
    · by_cases hk : a.1 = k
      · rw [List.filter_cons_of_neg (by simp [hk]),
          List.find?_cons_of_neg _ (by simp [ha])]
        exact ih
      · rw [List.filter_cons_of_pos (by simp [hk]),
          List.find?_cons_of_neg _ (by simp [ha]),
          List.find?_cons_of_neg _ (by simp [ha])]
        exact ih

theorem ui_btn_update_sel (c : Prop) [Decidable c] (u : UiState)
    (x : List (Nat × Bool)) : (if c then { u with btn := x } else u).sel = u.sel := by
  split <;> rfl

theorem ui_sel_update_sel (c : Prop) [Decidable c] (u : UiState)
    (x : List (Nat × Int)) :
    (if c then { u with sel := x } else u).sel = if c then x else u.sel := by
  split <;> rfl

/-- Claim C10: the reference paging state keeps one selected index per
message, initialised to 0 when absent; clicking the button for
Reference i (the buttons exist for i below the number of references)
sets that message's index to i; the detail panel is rendered only when
the stored index lies in `[0, len)`, and whenever it is rendered the
shown reference is the in-range list entry (so out-of-range indexing is
unreachable); and the run leaves the selected index of every other
message unchanged. -/
theorem show_references_paging_safety (references : List Ref) (message_idx : Nat)
    (ui : UiState) (click : Option Nat) :
    (references ≠ [] → assoc_get ui.sel message_idx = none → click = none →
      assoc_get (show_references references message_idx ui click).1.sel message_idx
        = some 0)
    ∧ (∀ i, references ≠ [] → i < references.length →
        assoc_get (show_references references message_idx ui (some i)).1.sel
          message_idx = some (i : Int))
    ∧ (∀ r, (show_references references message_idx ui click).2 = some r →
        (0 : Int) ≤ (assoc_get (show_references references message_idx
            ui click).1.sel message_idx).getD 0
        ∧ (assoc_get (show_references references message_idx
            ui click).1.sel message_idx).getD 0 < (references.length : Int)
        ∧ references.get? ((assoc_get (show_references references message_idx
            ui click).1.sel message_idx).getD 0).toNat = some r
        ∧ r ∈ references)
    ∧ (∀ m, m ≠ message_idx →
        assoc_get (show_references references message_idx ui click).1.sel m
          = assoc_get ui.sel m) := by
  refine ⟨?_, ?_, ?_, ?_⟩
  · intro hne habs hclick
    subst hclick
    unfold show_references
    rw [if_neg hne]
    simp only []
    rw [ui_btn_update_sel, if_pos (by rw [habs]; rfl)]
    show assoc_get (assoc_set ui.sel message_idx 0) message_idx = some 0
    exact assoc_get_set_self ui.sel message_idx 0
  · intro i hne _
    unfold show_references
    rw [if_neg hne]
    simp only []
    show assoc_get (assoc_set _ message_idx (i : Int)) message_idx = some (i : Int)
    exact assoc_get_set_self _ message_idx (i : Int)
  · intro r hr
    by_cases hne : references = []
    · unfold show_references at hr
      rw [if_pos hne] at hr
      exact absurd hr (by simp)
    · have heq : (show_references references message_idx ui click).2 =
          render_selected references message_idx
            (show_references references message_idx ui click).1 := by
        unfold show_references
        rw [if_neg hne]
      rw [heq] at hr
      unfold render_selected at hr
      split at hr
      · rename_i hcond
        exact ⟨hcond.1, hcond.2, hr, List.get?_mem hr⟩
      · exact absurd hr (by simp)
  · intro m hm
    by_cases hne : references = []
    · unfold show_references
      rw [if_pos hne]
    · unfold show_references
      rw [if_neg hne]
      simp only []
      cases click with
      | none =>
        rw [ui_btn_update_sel, ui_sel_update_sel]
        split
        · exact assoc_get_set_ne ui.sel 0 hm
        · rfl
      | some i =>
        rw [assoc_get_set_ne _ (i : Int) hm, ui_btn_update_sel, ui_sel_update_sel]
        split
        · exact assoc_get_set_ne ui.sel 0 hm
        · rfl


/-- Witness for claim C10: clicking the button for Reference 1 (index 1)
stores index 1 for message 5. -/
theorem show_references_paging_safety_witness :
    assoc_get (show_references c10_refs 5 {} (some 1)).1.sel 5 = some (1 : Int) :=
  (show_references_paging_safety c10_refs 5 {} (some 1)).2.1 1 (by decide) (by decide)
